import Mathlib

/-
  Verification development for the rust-solar acquisition-and-persistence
  pipeline.  The Rust sources are shallowly embedded:

  * `DataPoint` and its decoding (`src/datapoint.rs`) — strings are `List Char`,
    Rust `f64` parsing is modelled exactly over `ℚ` (plus inf/nan markers);
    `Option` return values model panics (`none` = the call panics).
  * the SQLite-backed buffer (`src/database.rs`) — the store is a list of rows,
    per-row insert outcomes and the commit outcome are an environment script.
  * the serial port (`src/serial_data_logger.rs`) — the port is a script of
    byte-level read events and write outcomes.
  * the data-logging thread loop of `run_app` (`src/main.rs`).

  The regex character class `\d` is modelled as the ASCII digits 0-9 (the
  device emits ASCII lines).
-/

namespace Solar

/-- Value of one parsed `f64` field.  Finite values are modelled exactly as
rationals; `inf`, `neginf` and `nan` mark the non-finite parses that Rust's
`f64::from_str` also accepts. -/
inductive FloatVal where
  | num (q : ℚ)
  | inf
  | neginf
  | nan
deriving DecidableEq

/-- All characters are ASCII digits. -/
def allDigits (l : List Char) : Bool := l.all Char.isDigit

/-- Numeric value of a digit string (most significant first). -/
def natOfDigits (l : List Char) : ℕ := l.foldl (fun a c => 10 * a + (c.toNat - 48)) 0

/-- Value of a fractional digit string: `fracVal "25" = 25/100`. -/
def fracVal (l : List Char) : ℚ := (natOfDigits l : ℚ) / (10 : ℚ) ^ l.length

/-- Strip one leading sign character, recording whether it was a minus. -/
def signSplit (t : List Char) : Bool × List Char :=
  match t with
  | c :: r => if c = '-' then (true, r) else if c = '+' then (false, r) else (false, t)
  | [] => (false, [])

/-- Body of the regex numeric group after the optional sign:
the pattern fragment `(\d*[.])?\d+` of `DATA_POINT_REGEX`. -/
def bodyOk (t : List Char) : Bool :=
  let d1 := t.takeWhile Char.isDigit
  let r1 := t.dropWhile Char.isDigit
  match r1 with
  | [] => !d1.isEmpty
  | c :: r2 => c = '.' && (!r2.isEmpty && allDigits r2)

/-- Whole-token match of the regex numeric group `[+-]?(\d*[.])?\d+`. -/
def numTokOk (t : List Char) : Bool := bodyOk (signSplit t).2

/-- Whole-token match of the regex tail group `\d{1,19}`. -/
def tailTokOk (t : List Char) : Bool :=
  !t.isEmpty && decide (t.length ≤ 19) && allDigits t

/-- One attempt of `DATA_POINT_REGEX` anchored at the start of `t`:
`k` remaining copies of the group `([+-]?(\d*[.])?\d+):`, then `\d{1,19}`.
Because the group cannot contain `:`, a group anchored at a position must
cover exactly the characters up to the next colon; the tail needs only a
leading digit (the quantifier `{1,19}` is satisfied by one digit and nothing
anchors the pattern end). -/
def matchAt : Nat → List Char → Bool
  | 0, t =>
    match t with
    | c :: _ => c.isDigit
    | [] => false
  | k+1, t =>
    let g := t.takeWhile (fun c => c ≠ ':')
    let r := t.dropWhile (fun c => c ≠ ':')
    match r with
    | _ :: r2 => numTokOk g && matchAt k r2
    | [] => false

/-- Model of `Regex::captures`: an unanchored search: the pattern may match
starting at any position of the line. -/
def hasMatch (s : List Char) : Bool :=
  (List.range (s.length + 1)).any (fun i => matchAt 9 (s.drop i))

/-- Split a token at the first exponent marker `e`/`E`, as Rust float parsing
does; returns the mantissa part and, when a marker is present, the exponent
part. -/
def splitExpM (t : List Char) : List Char × Option (List Char) :=
  let m := t.takeWhile (fun c => c ≠ 'e' && c ≠ 'E')
  let r := t.dropWhile (fun c => c ≠ 'e' && c ≠ 'E')
  match r with
  | [] => (m, none)
  | _ :: r2 => (m, some r2)

/-- Rust `f64::from_str` mantissa: `Digit+ | Digit+ '.' Digit* | Digit* '.' Digit+`,
with its exact rational value. -/
def mantissaVal (t : List Char) : Option ℚ :=
  let d1 := t.takeWhile Char.isDigit
  let r1 := t.dropWhile Char.isDigit
  match r1 with
  | [] => if d1.isEmpty then none else some ((natOfDigits d1 : ℚ))
  | c :: r2 =>
    if c = '.' && allDigits r2 && !(d1.isEmpty && r2.isEmpty) then
      some ((natOfDigits d1 : ℚ) + fracVal r2)
    else none

/-- Rust `f64::from_str` exponent part: optional sign then at least one digit. -/
def expVal (t : List Char) : Option ℤ :=
  let (neg, t1) := signSplit t
  if !t1.isEmpty && allDigits t1 then
    some (if neg then -(natOfDigits t1 : ℤ) else (natOfDigits t1 : ℤ))
  else none

/-- Lower-cased characters, for the case-insensitive `inf`/`infinity`/`nan`
alternatives of Rust float parsing. -/
def lowerStr (t : List Char) : List Char := t.map Char.toLower

/-- Model of Rust `str::parse::<f64>()` (the grammar of `f64::from_str`):
optional sign, then either a decimal mantissa with optional exponent, or the
case-insensitive literals `inf`, `infinity`, `nan`.  Finite values are exact
rationals.  The two alternatives accept disjoint token sets, so trying the
numeric form first is faithful. -/
def rustParseF64 (t : List Char) : Option FloatVal :=
  let (neg, t1) := signSplit t
  let (m, eopt) := splitExpM t1
  match mantissaVal m with
  | some q =>
    match eopt with
    | none => some (.num (if neg then -q else q))
    | some ex =>
      match expVal ex with
      | some z => some (.num (if neg then -(q * (10 : ℚ) ^ z) else q * (10 : ℚ) ^ z))
      | none => none
  | none =>
    let l := lowerStr t1
    if l = [ 'i', 'n', 'f' ] || l = [ 'i', 'n', 'f', 'i', 'n', 'i', 't', 'y' ] then
      some (if neg then .neginf else .inf)
    else if l = [ 'n', 'a', 'n' ] then some .nan
    else none

/-- Rust `str::split(':')`: the pieces between colons, in order, keeping
empty pieces. -/
def splitCol : List Char → List (List Char)
  | [] => [[]]
  | c :: rest =>
    match splitCol rest with
    | [] => [[]]
    | g :: gs => if c = ':' then [] :: g :: gs else (c :: g) :: gs

/-- Join tokens with `:` separators (left inverse of `splitCol` on colon-free
tokens). -/
def joinColon : List (List Char) → List Char
  | [] => []
  | [g] => g
  | g :: gs => g ++ ':' :: joinColon gs

/-- One telemetry reading (`DataPoint` in `src/datapoint.rs`).  The timestamp
is stamped by the receiver; numeric fields are the parsed floats in declared
order. -/
structure DataPoint where
  timestamp : ℤ
  battery_voltage : FloatVal
  pv_voltage : FloatVal
  load_current : FloatVal
  over_discharge : FloatVal
  battery_max : FloatVal
  battery_full : FloatVal
  charging : FloatVal
  battery_temp : FloatVal
  charge_current : FloatVal
  load_onoff : FloatVal
deriving DecidableEq

/-- Embedding of `DataPoint::default()`: zero-valued fields, receiver timestamp. -/
def DataPoint.default (now : ℤ) : DataPoint :=
  ⟨now, .num 0, .num 0, .num 0, .num 0, .num 0, .num 0, .num 0, .num 0, .num 0, .num 0⟩

/-- Embedding of `DataPoint::new(data)`: indexes `data[0]` … `data[9]`; `none` models the
index-out-of-bounds panic when fewer than ten floats were extracted.  `now` is
the receiver wall-clock timestamp the constructor stamps. -/
def DataPoint.new (data : List FloatVal) (now : ℤ) : Option DataPoint :=
  if h : 10 ≤ data.length then
    some { timestamp := now
           battery_voltage := data.get ⟨0, by omega⟩
           pv_voltage := data.get ⟨1, by omega⟩
           load_current := data.get ⟨2, by omega⟩
           over_discharge := data.get ⟨3, by omega⟩
           battery_max := data.get ⟨4, by omega⟩
           battery_full := data.get ⟨5, by omega⟩
           charging := data.get ⟨6, by omega⟩
           battery_temp := data.get ⟨7, by omega⟩
           charge_current := data.get ⟨8, by omega⟩
           load_onoff := data.get ⟨9, by omega⟩ }
  else none

/-- Embedding of `DataPoint::from_str`: regex precheck (unanchored search; `none` models
the `panic!("Invalid DataPoint syntax.")`), then split on `:`, filter to the
tokens that parse as `f64`, and construct via `DataPoint::new` (which panics
when fewer than ten floats survive the filter). -/
def DataPoint.from_str (s : List Char) (now : ℤ) : Option DataPoint :=
  if hasMatch s then
    DataPoint.new ((splitCol s).filterMap rustParseF64) now
  else none

/-- The constant `BUFFER_LIMIT` from `src/database.rs`. -/
def BUFFER_LIMIT : ℕ := 256

/-- The SQLite store and in-memory buffer (`Database` in `src/database.rs`).
`rows` are the committed rows of the `Data` table (each row holds the ten
fields plus timestamp of one `DataPoint`, bound in the declared column order
by the parameterized `DATABASE_INSERT` statement).  `batches` records every
vector handed to `insert_datapoints`, in order, so that "handed to the commit
path" is observable independently of insert/commit outcomes.  `errorLogs`
counts `error!` log lines. -/
structure Database where
  rows : List DataPoint
  datapoint_buffer : List DataPoint
  batches : List (List DataPoint)
  errorLogs : ℕ
deriving DecidableEq

/-- A fresh `Database::default()`: empty buffer; the table is created if
absent, so a fresh store has no rows. -/
def Database.init : Database := ⟨[], [], [], 0⟩

/-- Environment script for one `insert_datapoints` call: the outcome of each
per-row `trans.execute` (a missing entry means success) and of
`trans.commit`. -/
structure DbEnv where
  rowOk : List Bool
  commitOk : Bool
deriving DecidableEq

/-- The rows a transaction retains: each datapoint whose `trans.execute`
succeeded, in order; flags beyond the script default to success. -/
def applyRowOk : List DataPoint → List Bool → List DataPoint
  | [], _ => []
  | dp :: rest, [] => dp :: applyRowOk rest []
  | dp :: rest, b :: bs => (if b then [dp] else []) ++ applyRowOk rest bs

/-- Embedding of `Database::insert_datapoints`: one transaction; each datapoint is
inserted by the parameterized statement (a per-row error is logged, the loop
continues); then the transaction is committed (on commit error the batch is
lost and the error logged). -/
def insert_datapoints (db : Database) (datapoints : List DataPoint) (env : DbEnv) : Database :=
  let pending := applyRowOk datapoints env.rowOk
  { db with
    rows := if env.commitOk then db.rows ++ pending else db.rows
    batches := db.batches ++ [datapoints]
    errorLogs := db.errorLogs + (datapoints.length - pending.length) +
      (if env.commitOk then 0 else 1) }

/-- Embedding of `Database::add_datapoint`: push into the buffer; once the length reaches
`BUFFER_LIMIT` the whole buffer is swapped out for a fresh empty one and
handed to `insert_datapoints`. -/
def add_datapoint (db : Database) (dp : DataPoint) (env : DbEnv) : Database :=
  let buf := db.datapoint_buffer ++ [dp]
  if BUFFER_LIMIT ≤ buf.length then
    insert_datapoints { db with datapoint_buffer := [] } buf env
  else
    { db with datapoint_buffer := buf }

/-- Append a sequence of datapoints one by one (the acquisition loop calls
`add_datapoint` once per cycle); the environment script applies to whichever
appends trigger a flush. -/
def addAll (db : Database) (dps : List DataPoint) (env : DbEnv) : Database :=
  dps.foldl (fun d dp => add_datapoint d dp env) db

/-- Embedding of `impl Drop for Database` (`src/database.rs` lines 56-61): `mem::take`
empties the buffer, the taken datapoints go through `insert_datapoints` (the
same commit path), and only afterwards is the `connection` field dropped,
releasing the store handle. -/
def dropDatabase (db : Database) (env : DbEnv) : Database :=
  insert_datapoints { db with datapoint_buffer := [] } db.datapoint_buffer env

/-- One byte-level event of the serial port read script
(`self.port.read(&mut temp_buf)` with a 1-byte buffer). -/
inductive RdEv where
  | byte (b : ℕ)
  | zero
  | ioErr
deriving DecidableEq

/-- Outcome of one `self.port.write(..)` call. -/
inductive WrEv where
  | ok (n : ℕ)
  | err
deriving DecidableEq

/-- One port operation, recorded in order. -/
inductive PortOp where
  | opRead (result : Option (List ℕ))
  | opWrite (data : List ℕ)
  | opFlush
deriving DecidableEq

/-- State of a `SerialDatalogger`s port: pending read events, pending write
outcomes, the chunks the port accepted, the operation trace, and the count of
`error!` log lines. -/
structure SDLState where
  rdEvents : List RdEv
  wrEvents : List WrEv
  written : List (List ℕ)
  trace : List PortOp
  errorLogs : ℕ
deriving DecidableEq

/-- The accumulation loop of `read_serial_datapoint`: read one byte at a
time; a zero-byte read ends the line (not an error); a newline byte is pushed
and then ends the line; a read error propagates (`none`).  Returns the
accumulated bytes and the remaining script.  An exhausted script is treated
as a propagated error (outside the modelled executions). -/
def readSerialAux : List RdEv → List ℕ → Option (List ℕ) × List RdEv
  | [], _ => (none, [])
  | RdEv.ioErr :: rest, _ => (none, rest)
  | RdEv.zero :: rest, acc => (some acc, rest)
  | RdEv.byte b :: rest, acc =>
    if b = 10 then (some (acc ++ [b]), rest)
    else readSerialAux rest (acc ++ [b])

/-- Drop all trailing CR (13) and LF (10) bytes, as
`trim_end_matches(|c| c == '\r' || c == '\n')` does (lines are ASCII, so the
byte level and `from_utf8_lossy` string level agree). -/
def trimCRLF (l : List ℕ) : List ℕ :=
  (l.reverse.dropWhile (fun b => b = 13 || b = 10)).reverse

/-- Embedding of `SerialDatalogger::read_serial_datapoint`: accumulate bytes, then trim
the trailing CR/LF of the accumulated text. -/
def read_serial_datapoint (st : SDLState) : Option (List ℕ) × SDLState :=
  let r := (readSerialAux st.rdEvents []).1
  let rest := (readSerialAux st.rdEvents []).2
  let res := r.map trimCRLF
  (res, { st with rdEvents := rest, trace := st.trace ++ [PortOp.opRead res] })

/-- Embedding of `SerialDatalogger::write`: on `Ok(p)` return the count `p`; on `Err(e)`
log the error and return 0.  The port accepts the chunk only on success.  An
exhausted script defaults to full success. -/
def sdlWrite (st : SDLState) (data : List ℕ) : SDLState × ℕ :=
  match st.wrEvents with
  | WrEv.ok n :: rest =>
    ({ st with
        wrEvents := rest
        written := st.written ++ [data]
        trace := st.trace ++ [PortOp.opWrite data] }, n)
  | WrEv.err :: rest =>
    ({ st with
        wrEvents := rest
        errorLogs := st.errorLogs + 1
        trace := st.trace ++ [PortOp.opWrite data] }, 0)
  | [] =>
    ({ st with
        written := st.written ++ [data]
        trace := st.trace ++ [PortOp.opWrite data] }, data.length)

/-- The bytes of `"LON\n"`. -/
def LON : List ℕ := [76, 79, 78, 10]

/-- The bytes of `"LOFF\n"`. -/
def LOFF : List ℕ := [76, 79, 70, 70, 10]

/-- Embedding of `SerialDatalogger::load_on`: one throwaway `read_serial_datapoint` (result
discarded), then `write("LON\n")` (count only logged), then `port.flush()`. -/
def load_on (st : SDLState) : SDLState :=
  let (_, st1) := read_serial_datapoint st
  let (st2, _x) := sdlWrite st1 LON
  { st2 with trace := st2.trace ++ [PortOp.opFlush] }

/-- Embedding of `SerialDatalogger::load_off`: one throwaway read, then `write("LOFF\n")`,
then flush. -/
def load_off (st : SDLState) : SDLState :=
  let (_, st1) := read_serial_datapoint st
  let (st2, _x) := sdlWrite st1 LOFF
  { st2 with trace := st2.trace ++ [PortOp.opFlush] }

/-- Outcome of one `read_datapoint` call as seen by the data-logging loop:
a decoded datapoint, a propagated I/O error, or a decode panic (which kills
the thread). -/
inductive ReadResult where
  | ok (dp : DataPoint)
  | ioError
  | panicked
deriving DecidableEq

/-- Embedding of `SerialDatalogger::read_datapoint` at line level: `interrupts` many
`ErrorKind::Interrupted` results are retried transparently; then the final
`read_serial_datapoint` outcome (`some line` or an error) is handled: a line
is decoded by `DataPoint::from_str` (a decode failure panics) and the decoded
point is pushed into the database buffer before being returned. -/
def read_datapoint : ℕ → Option (List Char) → ℤ → Database → DbEnv → ReadResult × Database
  | n + 1, res, now, db, env => read_datapoint n res now db env
  | 0, some line, now, db, env =>
    match DataPoint.from_str line now with
    | some dp => (ReadResult.ok dp, add_datapoint db dp env)
    | none => (ReadResult.panicked, db)
  | 0, none, _, db, _ => (ReadResult.ioError, db)

/-- Environment of one cycle of the data-logging loop in `run_app`
(`src/main.rs` lines 218-241): the read outcome for the cycle (with its
transparent interrupted retries), the receiver timestamp, at most one drained
control command (`some b` = a message arrived with toggle state `b`), and the
database script for a possible buffer flush. -/
structure CycleEv where
  interrupts : ℕ
  res : Option (List Char)
  now : ℤ
  cmd : Option Bool
  dbEnv : DbEnv
deriving DecidableEq

/-- Observable state of the data-logging thread: the database, the values
sent over the `rx` channel (`none` models sending the `Err` result), the
command bytes written to the port, how many times the serial connection was
re-established during the loop, and whether the thread has panicked. -/
structure LoopState where
  db : Database
  sent : List (Option DataPoint)
  portWrites : List (List ℕ)
  reconnects : ℕ
  panicked : Bool
deriving DecidableEq

/-- Drain at most one pending control command: on `Ok(_)` the current toggle
state selects `load_on` or `load_off` (observed here as the command bytes
written); on timeout nothing happens. -/
def applyCmd (st : LoopState) : Option Bool → LoopState
  | none => st
  | some true => { st with portWrites := st.portWrites ++ [LON] }
  | some false => { st with portWrites := st.portWrites ++ [LOFF] }

/-- One iteration of the `while running` loop of the data-logging thread:
`read_datapoint`, send the result over the channel, sleep, drain at most one
command.  A panicked thread executes nothing further.  No branch
re-establishes the connection or maintains a failure counter. -/
def loopCycle (st : LoopState) (ev : CycleEv) : LoopState :=
  if st.panicked then st else
  match read_datapoint ev.interrupts ev.res ev.now st.db ev.dbEnv with
  | (ReadResult.panicked, db1) => { st with db := db1, panicked := true }
  | (ReadResult.ok dp, db1) =>
    applyCmd { st with db := db1, sent := st.sent ++ [some dp] } ev.cmd
  | (ReadResult.ioError, db1) =>
    applyCmd { st with db := db1, sent := st.sent ++ [none] } ev.cmd

/-- A run of the data-logging loop over a finite script of cycles. -/
def loopRun (st : LoopState) (evs : List CycleEv) : LoopState :=
  evs.foldl loopCycle st

/-- Initial state of the data-logging thread with a fresh database. -/
def LoopState.init : LoopState := ⟨Database.init, [], [], 0, false⟩

/-- The wire-line shape of the spec read as a whole-line pattern: nine
colon-terminated numeric tokens followed by a final integer token.
Modelled from the spec wording of §4.1/§6 for comparison with the
implementation regex, which is searched unanchored. -/
def wireLineWhole (s : List Char) : Prop :=
  ∃ ts tl, ts.length = 9 ∧ (∀ t ∈ ts, numTokOk t = true) ∧ tailTokOk tl = true ∧
    s = joinColon (ts ++ [tl])

/-- The canonical telemetry line of the spec examples. -/
def exLine : List Char := ("12.6:18.3:2.1:0.0:14.4:1.0:0.0:25.5:0.0:1.0:9999999").toList

/-
  Generic helper lemmas.
-/

theorem length_filterMap_of_isSome {α β : Type} (f : α → Option β) :
    ∀ l : List α, (∀ x ∈ l, (f x).isSome = true) → (l.filterMap f).length = l.length
  | [], _ => rfl
  | a :: l, h => by
    obtain ⟨b, hb⟩ := Option.isSome_iff_exists.mp (h a (List.mem_cons_self a l))
    rw [List.filterMap_cons, hb]
    simp only [List.length_cons]
    rw [length_filterMap_of_isSome f l (fun x hx => h x (List.mem_cons_of_mem a hx))]

theorem digit_ne_special {c : Char} (h : c.isDigit = true) :
    ¬(c = ':') ∧ ¬(c = 'e') ∧ ¬(c = 'E') ∧ ¬(c = '+') ∧ ¬(c = '-') ∧ ¬(c = '.') := by
  refine ⟨?_, ?_, ?_, ?_, ?_, ?_⟩ <;> intro hc <;> subst hc <;> exact absurd h (by decide)

theorem takeWhile_all {p : Char → Bool} :
    ∀ l : List Char, (∀ c ∈ l, p c = true) → l.takeWhile p = l ∧ l.dropWhile p = []
  | [], _ => ⟨rfl, rfl⟩
  | c :: l, h => by
    have hc : p c = true := h c (List.mem_cons_self c l)
    have ih := takeWhile_all l (fun x hx => h x (List.mem_cons_of_mem c hx))
    constructor
    · simp [List.takeWhile_cons, hc, ih.1]
    · simp [List.dropWhile_cons, hc, ih.2]

theorem takeWhile_split {p : Char → Bool} {a : List Char} (b : List Char)
    (ha : ∀ c ∈ a, p c = true) (hcol : p ':' = false) :
    (a ++ ':' :: b).takeWhile p = a ∧ (a ++ ':' :: b).dropWhile p = ':' :: b := by
  induction a with
  | nil => simp [List.takeWhile_cons, List.dropWhile_cons, hcol]
  | cons c a ih =>
    have hc : p c = true := ha c (List.mem_cons_self c a)
    have ih2 := ih (fun x hx => ha x (List.mem_cons_of_mem c hx))
    constructor
    · simp [List.takeWhile_cons, hc, ih2.1]
    · simp [List.dropWhile_cons, hc, ih2.2]

theorem splitCol_ne_nil : ∀ l : List Char, splitCol l ≠ []
  | [] => by simp [splitCol]
  | c :: rest => by
    rw [splitCol]
    rcases h : splitCol rest with _ | ⟨g, gs⟩
    · exact absurd h (splitCol_ne_nil rest)
    · by_cases hc : c = ':' <;> simp [hc]

theorem splitCol_colonFree : ∀ a : List Char, (∀ c ∈ a, ¬(c = ':')) → splitCol a = [a]
  | [], _ => rfl
  | c :: a, h => by
    rw [splitCol, splitCol_colonFree a (fun x hx => h x (List.mem_cons_of_mem c hx))]
    simp [h c (List.mem_cons_self c a)]

theorem splitCol_append (a b : List Char) (h : ∀ c ∈ a, ¬(c = ':')) :
    splitCol (a ++ ':' :: b) = a :: splitCol b := by
  induction a with
  | nil =>
    rw [List.nil_append, splitCol]
    rcases hb : splitCol b with _ | ⟨g, gs⟩
    · exact absurd hb (splitCol_ne_nil b)
    · simp
  | cons c a ih =>
    have hne : ¬(c = ':') := h c (List.mem_cons_self c a)
    rw [List.cons_append, splitCol, ih (fun x hx => h x (List.mem_cons_of_mem c hx))]
    simp [hne]

theorem joinColon_cons (g : List Char) {gs : List (List Char)} (h : gs ≠ []) :
    joinColon (g :: gs) = g ++ ':' :: joinColon gs := by
  rcases gs with _ | ⟨g2, gs2⟩
  · exact absurd rfl h
  · rfl

theorem splitCol_joinColon :
    ∀ gs : List (List Char), gs ≠ [] → (∀ g ∈ gs, ∀ c ∈ g, ¬(c = ':')) →
      splitCol (joinColon gs) = gs
  | [], h, _ => absurd rfl h
  | [g], _, hg => by
    rw [joinColon, splitCol_colonFree g (hg g (List.mem_cons_self g []))]
  | g :: g2 :: gs, _, hg => by
    rw [joinColon_cons g (by simp),
      splitCol_append _ _ (hg g (List.mem_cons_self g (g2 :: gs))),
      splitCol_joinColon (g2 :: gs) (by simp)
        (fun x hx => hg x (List.mem_cons_of_mem g hx))]

/-
  Character-shape facts about the regex token languages, and the key parsing
  lemma: every token matched by the regex numeric group parses as `f64`.
-/

theorem bodyOk_chars {t : List Char} (h : bodyOk t = true) :
    ∀ c ∈ t, c.isDigit = true ∨ c = '.' := by
  intro c hc
  have hsplit : t.takeWhile Char.isDigit ++ t.dropWhile Char.isDigit = t :=
    List.takeWhile_append_dropWhile Char.isDigit t
  rw [← hsplit] at hc
  rcases List.mem_append.mp hc with h1 | h2
  · exact Or.inl (List.mem_takeWhile_imp h1)
  · unfold bodyOk at h
    rcases hr : t.dropWhile Char.isDigit with _ | ⟨c0, r2⟩
    · rw [hr] at h2; cases h2
    · rw [hr] at h h2
      simp only [Bool.and_eq_true, decide_eq_true_eq] at h
      obtain ⟨hdot, _, hdig⟩ := h
      rcases List.mem_cons.mp h2 with hc0 | hmem
      · exact Or.inr (hc0.trans hdot)
      · exact Or.inl (List.all_eq_true.mp hdig c hmem)

theorem signSplit_sub {t : List Char} : ∀ c ∈ (signSplit t).2, c ∈ t := by
  intro c hc
  rcases t with _ | ⟨c0, r⟩
  · exact hc
  · simp only [signSplit] at hc
    by_cases h1 : c0 = '-'
    · rw [if_pos h1] at hc; exact List.mem_cons_of_mem c0 hc
    · rw [if_neg h1] at hc
      by_cases h2 : c0 = '+'
      · rw [if_pos h2] at hc; exact List.mem_cons_of_mem c0 hc
      · rw [if_neg h2] at hc; exact hc

theorem numTok_chars {t : List Char} (h : numTokOk t = true) :
    ∀ c ∈ t, c.isDigit = true ∨ c = '+' ∨ c = '-' ∨ c = '.' := by
  intro c hc
  unfold numTokOk at h
  rcases t with _ | ⟨c0, r⟩
  · cases hc
  · simp only [signSplit] at h
    by_cases h1 : c0 = '-'
    · rw [if_pos h1] at h
      rcases List.mem_cons.mp hc with hc0 | hmem
      · exact Or.inr (Or.inr (Or.inl (hc0.trans h1)))
      · rcases bodyOk_chars h c hmem with hd | hd
        · exact Or.inl hd
        · exact Or.inr (Or.inr (Or.inr hd))
    · rw [if_neg h1] at h
      by_cases h2 : c0 = '+'
      · rw [if_pos h2] at h
        rcases List.mem_cons.mp hc with hc0 | hmem
        · exact Or.inr (Or.inl (hc0.trans h2))
        · rcases bodyOk_chars h c hmem with hd | hd
          · exact Or.inl hd
          · exact Or.inr (Or.inr (Or.inr hd))
      · rw [if_neg h2] at h
        rcases bodyOk_chars h c hc with hd | hd
        · exact Or.inl hd
        · exact Or.inr (Or.inr (Or.inr hd))

theorem numTok_colonFree {t : List Char} (h : numTokOk t = true) :
    ∀ c ∈ t, ¬(c = ':') := by
  intro c hc
  rcases numTok_chars h c hc with hd | h1 | h1 | h1
  · exact (digit_ne_special hd).1
  · subst h1; decide
  · subst h1; decide
  · subst h1; decide

theorem numTok_expFree {t : List Char} (h : numTokOk t = true) :
    ∀ c ∈ t, ¬(c = 'e') ∧ ¬(c = 'E') := by
  intro c hc
  rcases numTok_chars h c hc with hd | h1 | h1 | h1
  · exact ⟨(digit_ne_special hd).2.1, (digit_ne_special hd).2.2.1⟩
  · subst h1; exact ⟨by decide, by decide⟩
  · subst h1; exact ⟨by decide, by decide⟩
  · subst h1; exact ⟨by decide, by decide⟩

theorem parse_isSome_of_numTok {t : List Char} (h : numTokOk t = true) :
    (rustParseF64 t).isSome = true := by
  have hbody : bodyOk (signSplit t).2 = true := h
  have hexp : ∀ c ∈ (signSplit t).2, (decide ¬(c = 'e') && decide ¬(c = 'E')) = true := by
    intro c hc
    have := numTok_expFree h c (signSplit_sub c hc)
    simp [this.1, this.2]
  have hsplitexp : splitExpM (signSplit t).2 = ((signSplit t).2, none) := by
    unfold splitExpM
    rw [(takeWhile_all _ hexp).1, (takeWhile_all _ hexp).2]
  have hmant : (mantissaVal (signSplit t).2).isSome = true := by
    unfold mantissaVal
    unfold bodyOk at hbody
    rcases hr : (signSplit t).2.dropWhile Char.isDigit with _ | ⟨c0, r2⟩
    · rw [hr] at hbody
      simp only [Bool.not_eq_true'] at hbody
      simp [hbody]
    · rw [hr] at hbody
      simp only [Bool.and_eq_true, Bool.not_eq_true', decide_eq_true_eq] at hbody
      obtain ⟨hdot, hne, hdig⟩ := hbody
      simp [hdot, hdig, hne]
  rcases Option.isSome_iff_exists.mp hmant with ⟨q, hq⟩
  unfold rustParseF64
  rcases hs : signSplit t with ⟨neg, t1⟩
  rw [hs] at hsplitexp hq
  simp [hsplitexp, hq]

theorem numTok_of_tailTok {t : List Char} (h : tailTokOk t = true) : numTokOk t = true := by
  unfold tailTokOk at h
  simp only [Bool.and_eq_true] at h
  obtain ⟨⟨hne, _⟩, hdig⟩ := h
  have hall : ∀ c ∈ t, Char.isDigit c = true := fun c hc =>
    List.all_eq_true.mp hdig c hc
  simp only [Bool.not_eq_true'] at hne
  rcases ht : t with _ | ⟨c0, r⟩
  · subst ht; simp at hne
  · subst ht
    have hc0 : c0.isDigit = true := hall c0 (List.mem_cons_self c0 r)
    unfold numTokOk
    simp only [signSplit]
    rw [if_neg (digit_ne_special hc0).2.2.2.2.1, if_neg (digit_ne_special hc0).2.2.2.1]
    unfold bodyOk
    rw [(takeWhile_all _ hall).1, (takeWhile_all _ hall).2]
    simp

/-
  The unanchored regex search succeeds on every colon-join of numeric tokens
  whose tenth token begins with a digit.
-/

theorem joinColon_head (c : Char) (cs : List Char) (gs : List (List Char)) :
    ∃ l, joinColon ((c :: cs) :: gs) = c :: l := by
  rcases gs with _ | ⟨g2, gs2⟩
  · exact ⟨cs, rfl⟩
  · exact ⟨cs ++ ':' :: joinColon (g2 :: gs2), rfl⟩

theorem matchAt_zero_digit {c : Char} (hd : c.isDigit = true) (l : List Char) :
    matchAt 0 (c :: l) = true := by
  simp [matchAt, hd]

theorem matchAt_step {g : List Char} {rest : List Char} {k : ℕ}
    (hg : numTokOk g = true) (hrest : matchAt k rest = true) :
    matchAt (k + 1) (g ++ ':' :: rest) = true := by
  have hsplit := takeWhile_split (p := fun c => decide ¬(c = ':')) (a := g) rest
      (fun c hc => by simp [numTok_colonFree hg c hc]) (by decide)
  rw [matchAt, hsplit.1, hsplit.2]
  simp [hg, hrest]

theorem matchAt_tokens :
    ∀ (k : ℕ) (ts : List (List Char)), k < ts.length →
      (∀ t ∈ ts.take k, numTokOk t = true) →
      matchAt 0 (joinColon (ts.drop k)) = true →
      matchAt k (joinColon ts) = true
  | 0, ts, _, _, h0 => by simpa using h0
  | k + 1, [], hk, _, _ => by simp at hk
  | k + 1, t :: ts2, hk, hnum, h0 => by
    have hk2 : k < ts2.length := by
      simpa using Nat.lt_of_succ_lt_succ hk
    have hne : ts2 ≠ [] := by
      intro h; rw [h] at hk2; simp at hk2
    rw [joinColon_cons t hne]
    exact matchAt_step (hnum t (by simp))
      (matchAt_tokens k ts2 hk2 (fun x hx => hnum x (by simp [hx])) (by simpa using h0))

theorem hasMatch_of_matchAt {s : List Char} (h : matchAt 9 s = true) : hasMatch s = true := by
  unfold hasMatch
  rw [List.any_eq_true]
  exact ⟨0, by simp, by simpa using h⟩

theorem fields_of_numTokens {ts : List (List Char)} (hne : ts ≠ [])
    (hnum : ∀ t ∈ ts, numTokOk t = true) :
    splitCol (joinColon ts) = ts ∧
    ((splitCol (joinColon ts)).filterMap rustParseF64).length = ts.length := by
  have hsc := splitCol_joinColon ts hne (fun g hg => numTok_colonFree (hnum g hg))
  refine ⟨hsc, ?_⟩
  rw [hsc]
  exact length_filterMap_of_isSome _ ts (fun t ht => parse_isSome_of_numTok (hnum t ht))

theorem from_str_of_numTokens {ts : List (List Char)} (now : ℤ)
    (h10 : 10 ≤ ts.length)
    (hnum : ∀ t ∈ ts, numTokOk t = true)
    (hd : ∃ c cs rest2, ts.drop 9 = (c :: cs) :: rest2 ∧ c.isDigit = true) :
    (DataPoint.from_str (joinColon ts) now).isSome = true := by
  obtain ⟨c, cs, rest2, hdrop, hdig⟩ := hd
  have h9 : 9 < ts.length := by omega
  have hm : matchAt 9 (joinColon ts) = true := by
    apply matchAt_tokens 9 ts h9 (fun x hx => hnum x (List.take_subset 9 ts hx))
    rw [hdrop]
    obtain ⟨l, hl⟩ := joinColon_head c cs rest2
    rw [hl]
    exact matchAt_zero_digit hdig l
  have hfc := fields_of_numTokens (by intro h; rw [h] at h10; simp at h10) hnum
  unfold DataPoint.from_str
  rw [hasMatch_of_matchAt hm, if_pos rfl]
  unfold DataPoint.new
  rw [dif_pos (by rw [hfc.2]; omega)]
  rfl

/-
  Buffer and commit-path lemmas.
-/

theorem applyRowOk_nil : ∀ dps : List DataPoint, applyRowOk dps [] = dps
  | [] => rfl
  | dp :: rest => by rw [applyRowOk, applyRowOk_nil rest]

theorem insert_datapoints_spec (db : Database) (dps : List DataPoint) (env : DbEnv) :
    (insert_datapoints db dps env).rows =
        (if env.commitOk then db.rows ++ applyRowOk dps env.rowOk else db.rows) ∧
    (insert_datapoints db dps env).batches = db.batches ++ [dps] ∧
    (insert_datapoints db dps env).datapoint_buffer = db.datapoint_buffer := by
  unfold insert_datapoints
  exact ⟨rfl, rfl, rfl⟩

theorem addAll_below (env : DbEnv) :
    ∀ (dps : List DataPoint) (db : Database),
      db.datapoint_buffer.length + dps.length < BUFFER_LIMIT →
      addAll db dps env = { db with datapoint_buffer := db.datapoint_buffer ++ dps }
  | [], db, _ => by simp [addAll]
  | dp :: rest, db, h => by
    have hlen : ¬ BUFFER_LIMIT ≤ (db.datapoint_buffer ++ [dp]).length := by
      simp only [List.length_append, List.length_cons, List.length_nil]
      simp only [List.length_cons] at h
      unfold BUFFER_LIMIT at h ⊢
      omega
    have hstep : add_datapoint db dp env =
        { db with datapoint_buffer := db.datapoint_buffer ++ [dp] } := by
      unfold add_datapoint
      rw [if_neg hlen]
    have hrec := addAll_below env rest
      { db with datapoint_buffer := db.datapoint_buffer ++ [dp] }
      (by
        simp only [List.length_append, List.length_cons, List.length_nil]
        simp only [List.length_cons] at h
        omega)
    calc addAll db (dp :: rest) env
        = addAll (add_datapoint db dp env) rest env := by simp [addAll]
      _ = { db with datapoint_buffer := db.datapoint_buffer ++ dp :: rest } := by
          rw [hstep, hrec]; simp

theorem addAll_reach (env : DbEnv) :
    ∀ (dps : List DataPoint) (db : Database),
      dps ≠ [] →
      db.datapoint_buffer.length + dps.length = BUFFER_LIMIT →
      addAll db dps env =
        insert_datapoints { db with datapoint_buffer := [] }
          (db.datapoint_buffer ++ dps) env
  | [], _, hne, _ => absurd rfl hne
  | dp :: rest, db, _, h => by
    rcases rest with _ | ⟨dp2, rest2⟩
    · have hlen : BUFFER_LIMIT ≤ (db.datapoint_buffer ++ [dp]).length := by
        simp only [List.length_append, List.length_cons, List.length_nil]
        simp only [List.length_cons, List.length_nil] at h
        omega
      have hstep : add_datapoint db dp env =
          insert_datapoints { db with datapoint_buffer := [] }
            (db.datapoint_buffer ++ [dp]) env := by
        unfold add_datapoint
        rw [if_pos hlen]
      simp [addAll, hstep]
    · have h1 : ¬ BUFFER_LIMIT ≤ (db.datapoint_buffer ++ [dp]).length := by
        simp only [List.length_cons] at h
        simp only [List.length_append, List.length_cons, List.length_nil]
        unfold BUFFER_LIMIT at h ⊢
        omega
      have hstep : add_datapoint db dp env =
          { db with datapoint_buffer := db.datapoint_buffer ++ [dp] } := by
        unfold add_datapoint
        rw [if_neg h1]
      have hrec := addAll_reach env (dp2 :: rest2)
        { db with datapoint_buffer := db.datapoint_buffer ++ [dp] }
        (by simp)
        (by
          simp only [List.length_append, List.length_cons, List.length_nil]
          simp only [List.length_cons] at h
          omega)
      calc addAll db (dp :: dp2 :: rest2) env
          = addAll (add_datapoint db dp env) (dp2 :: rest2) env := by simp [addAll]
        _ = insert_datapoints { db with datapoint_buffer := [] }
              (db.datapoint_buffer ++ dp :: dp2 :: rest2) env := by
            rw [hstep, hrec]; simp

/-
  Serial read/write lemmas.
-/

theorem readSerialAux_script :
    ∀ (bs : List ℕ) (acc : List ℕ) (term : RdEv) (rest : List RdEv),
      (∀ b ∈ bs, ¬(b = 10)) →
      (term = RdEv.zero ∨ term = RdEv.byte 10) →
      readSerialAux (bs.map RdEv.byte ++ term :: rest) acc =
        (some (acc ++ bs ++ (if term = RdEv.byte 10 then [10] else [])), rest)
  | [], acc, term, rest, _, hterm => by
    rcases hterm with h | h
    · subst h; simp [readSerialAux]
    · subst h; simp [readSerialAux]
  | b :: bs, acc, term, rest, hb, hterm => by
    have hb10 : ¬(b = 10) := hb b (List.mem_cons_self b bs)
    rw [List.map_cons, List.cons_append, readSerialAux, if_neg hb10,
      readSerialAux_script bs (acc ++ [b]) term rest
        (fun x hx => hb x (List.mem_cons_of_mem b hx)) hterm]
    simp

theorem trimCRLF_append_newline (l : List ℕ) : trimCRLF (l ++ [10]) = trimCRLF l := by
  unfold trimCRLF
  simp [List.reverse_append, List.dropWhile_cons]

/-
  Data-logging loop lemmas.
-/

theorem read_datapoint_none :
    ∀ (n : ℕ) (now : ℤ) (db : Database) (env : DbEnv),
      read_datapoint n none now db env = (ReadResult.ioError, db)
  | 0, _, _, _ => rfl
  | n + 1, now, db, env => read_datapoint_none n now db env

theorem applyCmd_fields (st : LoopState) :
    ∀ c, (applyCmd st c).reconnects = st.reconnects ∧ (applyCmd st c).sent = st.sent ∧
      (applyCmd st c).panicked = st.panicked ∧ (applyCmd st c).db = st.db
  | none => ⟨rfl, rfl, rfl, rfl⟩
  | some true => ⟨rfl, rfl, rfl, rfl⟩
  | some false => ⟨rfl, rfl, rfl, rfl⟩

theorem loopCycle_reconnects (st : LoopState) (ev : CycleEv) :
    (loopCycle st ev).reconnects = st.reconnects := by
  unfold loopCycle
  by_cases hp : st.panicked = true
  · rw [if_pos hp]
  · rw [if_neg hp]
    rcases hr : read_datapoint ev.interrupts ev.res ev.now st.db ev.dbEnv with ⟨r, db1⟩
    rcases r with dp | _ | _
    · exact (applyCmd_fields _ ev.cmd).1
    · exact (applyCmd_fields _ ev.cmd).1
    · rfl

theorem loopRun_reconnects (evs : List CycleEv) :
    ∀ st : LoopState, (loopRun st evs).reconnects = st.reconnects := by
  induction evs with
  | nil => intro st; rfl
  | cons ev evs ih =>
    intro st
    calc (loopRun st (ev :: evs)).reconnects
        = (loopRun (loopCycle st ev) evs).reconnects := by simp [loopRun]
      _ = (loopCycle st ev).reconnects := ih _
      _ = st.reconnects := loopCycle_reconnects st ev

theorem loopCycle_err_sent (st : LoopState) (ev : CycleEv)
    (hp : st.panicked = false) (hres : ev.res = none) :
    (loopCycle st ev).sent = st.sent ++ [none] := by
  unfold loopCycle
  rw [hp, if_neg (by simp), hres, read_datapoint_none]
  exact (applyCmd_fields _ ev.cmd).2.1

theorem tailTok_head_digit {t : List Char} (h : tailTokOk t = true) :
    ∃ c cs, t = c :: cs ∧ c.isDigit = true := by
  unfold tailTokOk at h
  simp only [Bool.and_eq_true, Bool.not_eq_true'] at h
  obtain ⟨⟨hne, _⟩, hdig⟩ := h
  rcases t with _ | ⟨c, cs⟩
  · simp at hne
  · exact ⟨c, cs, rfl, List.all_eq_true.mp hdig c (List.mem_cons_self c cs)⟩

/-
  Claim C1.
-/

/-- C1, counterexample.  The claim: after 5 consecutive decode/read failures
the next acquisition cycle invokes a full reconnect and resets the failure
counter, and below the threshold a default Sample is published for the
failing cycle.  Running the modelled `run_app` loop over six consecutive
read-failure cycles performs no reconnect at all, and every failing cycle
forwards the error result itself (modelled `none`) to the consumer channel
instead of a default Sample: the loop has no failure counter and no
reconnect path. -/
theorem C1_counterexample :
    (loopRun LoopState.init
      (List.replicate 6 ⟨0, none, 0, none, ⟨[], true⟩⟩)).reconnects = 0 ∧
    (loopRun LoopState.init
      (List.replicate 6 ⟨0, none, 0, none, ⟨[], true⟩⟩)).sent =
        List.replicate 6 none := by
  exact ⟨rfl, by decide⟩

/-- C1, amended.  The acquisition loop of `run_app` maintains no
consecutive-failure counter and never re-establishes the serial connection:
over any script of cycles the reconnect count is unchanged, and a cycle
whose read fails publishes the error result itself for that cycle (never a
default Sample).  The connection is opened once, before the loop. -/
theorem C1_no_reconnect (st : LoopState) (evs : List CycleEv) (ev : CycleEv)
    (hp : st.panicked = false) (hres : ev.res = none) :
    (loopRun st evs).reconnects = st.reconnects ∧
    (loopCycle st ev).sent = st.sent ++ [none] :=
  ⟨loopRun_reconnects evs st, loopCycle_err_sent st ev hp hres⟩

/-- Witness for `C1_no_reconnect` at a concrete six-failure script. -/
theorem C1_no_reconnect_witness :
    (loopRun LoopState.init
      (List.replicate 6 ⟨0, none, 0, none, ⟨[], true⟩⟩)).reconnects =
        LoopState.init.reconnects ∧
    (loopCycle LoopState.init ⟨0, none, 0, none, ⟨[], true⟩⟩).sent =
        LoopState.init.sent ++ [none] :=
  C1_no_reconnect LoopState.init
    (List.replicate 6 ⟨0, none, 0, none, ⟨[], true⟩⟩)
    ⟨0, none, 0, none, ⟨[], true⟩⟩ rfl rfl

/-
  Claim C2.
-/

/-- C2, counterexample.  The claim: whenever the transaction commit
succeeds, exactly K rows are inserted, regardless of individual rows
reporting logged errors.  With a batch of K = 1 whose single
`trans.execute` fails (logged, not aborting) while the commit succeeds,
zero rows are inserted. -/
theorem C2_counterexample :
    (DbEnv.mk [false] true).commitOk = true ∧
    (insert_datapoints Database.init [DataPoint.default 0]
      (DbEnv.mk [false] true)).rows.length = 0 := by
  exact ⟨rfl, rfl⟩

/-- C2, amended.  `insert_datapoints` opens one transaction, attempts a
parameterized insert for each of the K samples, logs but does not abort on
per-row insert errors, then commits; whenever the commit succeeds, the rows
appended to the store are exactly the successfully inserted samples in
order, and exactly K rows whenever additionally every per-row insert
succeeded. -/
theorem C2_commit_rows (db : Database) (dps : List DataPoint) (env : DbEnv)
    (hc : env.commitOk = true) :
    (insert_datapoints db dps env).rows = db.rows ++ applyRowOk dps env.rowOk ∧
    (insert_datapoints db dps env).batches = db.batches ++ [dps] ∧
    (applyRowOk dps env.rowOk = dps →
      (insert_datapoints db dps env).rows.length = db.rows.length + dps.length) := by
  have h := insert_datapoints_spec db dps env
  refine ⟨?_, h.2.1, ?_⟩
  · rw [h.1, if_pos hc]
  · intro hall
    rw [h.1, if_pos hc, hall, List.length_append]

/-- Witness for `C2_commit_rows` at a concrete one-sample batch with an
all-success environment. -/
theorem C2_commit_rows_witness :
    (insert_datapoints Database.init [DataPoint.default 0]
      (DbEnv.mk [] true)).rows =
        Database.init.rows ++ applyRowOk [DataPoint.default 0] [] ∧
    (insert_datapoints Database.init [DataPoint.default 0]
      (DbEnv.mk [] true)).batches =
        Database.init.batches ++ [[DataPoint.default 0]] ∧
    (insert_datapoints Database.init [DataPoint.default 0]
      (DbEnv.mk [] true)).rows.length =
        Database.init.rows.length + [DataPoint.default 0].length :=
  ⟨(C2_commit_rows Database.init [DataPoint.default 0] (DbEnv.mk [] true) rfl).1,
   (C2_commit_rows Database.init [DataPoint.default 0] (DbEnv.mk [] true) rfl).2.1,
   (C2_commit_rows Database.init [DataPoint.default 0] (DbEnv.mk [] true) rfl).2.2 rfl⟩

/-
  Claim C3.
-/

/-- C3.  Starting from an empty buffer: appending N < 256 samples leaves
exactly those N samples in the buffer in insertion order and changes
nothing else (no flush); when the appends make the length reach
`BUFFER_LIMIT` = 256, the whole sequence is handed to the commit path and
the buffer is empty immediately after the triggering append returns. -/
theorem C3_buffer_append (dps : List DataPoint) (db : Database) (env : DbEnv)
    (h0 : db.datapoint_buffer = []) :
    (dps.length < BUFFER_LIMIT →
      addAll db dps env = { db with datapoint_buffer := dps }) ∧
    (dps.length = BUFFER_LIMIT →
      (addAll db dps env).datapoint_buffer = [] ∧
      (addAll db dps env).batches = db.batches ++ [dps]) := by
  constructor
  · intro hlt
    rw [addAll_below env dps db (by rw [h0]; simpa using hlt), h0]
    simp
  · intro heq
    have hne : dps ≠ [] := by
      intro h; rw [h] at heq; simp [BUFFER_LIMIT] at heq
    rw [addAll_reach env dps db hne (by rw [h0]; simpa using heq)]
    have h2 := insert_datapoints_spec { db with datapoint_buffer := [] }
      (db.datapoint_buffer ++ dps) env
    refine ⟨by rw [h2.2.2], ?_⟩
    rw [h2.2.1, h0]
    simp

/-- Witness for `C3_buffer_append`: three appends leave the three samples
buffered; 256 appends flush the whole batch and empty the buffer. -/
theorem C3_buffer_append_witness :
    addAll Database.init (List.replicate 3 (DataPoint.default 0)) (DbEnv.mk [] true) =
      { Database.init with
          datapoint_buffer := List.replicate 3 (DataPoint.default 0) } ∧
    (addAll Database.init (List.replicate 256 (DataPoint.default 0))
      (DbEnv.mk [] true)).datapoint_buffer = [] ∧
    (addAll Database.init (List.replicate 256 (DataPoint.default 0))
      (DbEnv.mk [] true)).batches =
        Database.init.batches ++ [List.replicate 256 (DataPoint.default 0)] :=
  ⟨(C3_buffer_append (List.replicate 3 (DataPoint.default 0)) Database.init
      (DbEnv.mk [] true) rfl).1 (by norm_num [BUFFER_LIMIT]),
   (C3_buffer_append (List.replicate 256 (DataPoint.default 0)) Database.init
      (DbEnv.mk [] true) rfl).2 (by rw [List.length_replicate]; rfl)⟩

/-
  Claim C4.
-/

/-- C4, counterexample.  The claim: on teardown with B < capacity samples
still buffered, exactly B additional rows appear in the store after
teardown completes.  Dropping a `Database` with B = 1 buffered sample whose
single `trans.execute` fails (logged, not aborting the batch) while the
transaction commit succeeds adds 0 rows, not 1 — the same failure mode that
refutes C2 — even though the buffered sample is still handed to the commit
path. -/
theorem C4_counterexample :
    (Database.mk [] [DataPoint.default 0] [] 0).datapoint_buffer.length = 1 ∧
    (DbEnv.mk [false] true).commitOk = true ∧
    (dropDatabase (Database.mk [] [DataPoint.default 0] [] 0)
      (DbEnv.mk [false] true)).rows.length = 0 ∧
    (dropDatabase (Database.mk [] [DataPoint.default 0] [] 0)
      (DbEnv.mk [false] true)).batches = [[DataPoint.default 0]] := by
  exact ⟨rfl, rfl, rfl, rfl⟩

/-- C4, amended.  Dropping the `Database` with B < 256 samples still
buffered hands all B of them to `insert_datapoints` — the same commit path
used by the size-triggered flush — before the connection field is dropped,
and the buffer is empty afterwards; exactly B additional rows appear in the
store when the commit and every per-row insert succeed (otherwise the rows
added are only the successfully inserted ones, or none on commit
failure). -/
theorem C4_drop_flush (db : Database) (env : DbEnv)
    (_hB : db.datapoint_buffer.length < BUFFER_LIMIT)
    (hc : env.commitOk = true)
    (hr : applyRowOk db.datapoint_buffer env.rowOk = db.datapoint_buffer) :
    (dropDatabase db env).rows = db.rows ++ db.datapoint_buffer ∧
    (dropDatabase db env).rows.length =
      db.rows.length + db.datapoint_buffer.length ∧
    (dropDatabase db env).batches = db.batches ++ [db.datapoint_buffer] ∧
    (dropDatabase db env).datapoint_buffer = [] := by
  unfold dropDatabase
  have h := insert_datapoints_spec { db with datapoint_buffer := [] }
    db.datapoint_buffer env
  refine ⟨?_, ?_, h.2.1, by rw [h.2.2]⟩
  · rw [h.1, if_pos hc, hr]
  · rw [h.1, if_pos hc, hr, List.length_append]

/-- Witness for `C4_drop_flush` with two buffered samples. -/
theorem C4_drop_flush_witness :
    (dropDatabase (Database.mk [] [DataPoint.default 0, DataPoint.default 1] [] 0)
      (DbEnv.mk [] true)).rows =
        (Database.mk [] [DataPoint.default 0, DataPoint.default 1] [] 0).rows ++
          (Database.mk [] [DataPoint.default 0, DataPoint.default 1] [] 0).datapoint_buffer ∧
    (dropDatabase (Database.mk [] [DataPoint.default 0, DataPoint.default 1] [] 0)
      (DbEnv.mk [] true)).rows.length =
        (Database.mk [] [DataPoint.default 0, DataPoint.default 1] [] 0).rows.length +
          (Database.mk [] [DataPoint.default 0, DataPoint.default 1] [] 0).datapoint_buffer.length ∧
    (dropDatabase (Database.mk [] [DataPoint.default 0, DataPoint.default 1] [] 0)
      (DbEnv.mk [] true)).batches =
        (Database.mk [] [DataPoint.default 0, DataPoint.default 1] [] 0).batches ++
          [(Database.mk [] [DataPoint.default 0, DataPoint.default 1] [] 0).datapoint_buffer] ∧
    (dropDatabase (Database.mk [] [DataPoint.default 0, DataPoint.default 1] [] 0)
      (DbEnv.mk [] true)).datapoint_buffer = [] :=
  C4_drop_flush (Database.mk [] [DataPoint.default 0, DataPoint.default 1] [] 0)
    (DbEnv.mk [] true) (by norm_num [BUFFER_LIMIT]) rfl rfl

/-
  Claim C5.
-/

/-- C5, counterexample.  The claim: every line accepted by the regex
precheck yields exactly ten parseable fields after splitting on `:` and
filtering, so the indexing `data[0]` … `data[9]` never panics.  The line
`"x1:2:3:4:5:6:7:8:9:0"` is accepted by the precheck (the unanchored search
matches starting after the `x`), yet only nine tokens parse as floats, and
`DataPoint::new` panics indexing `data[9]` (`from_str` = `none` even though
the precheck passed). -/
theorem C5_counterexample :
    hasMatch (("x1:2:3:4:5:6:7:8:9:0").toList) = true ∧
    ((splitCol (("x1:2:3:4:5:6:7:8:9:0").toList)).filterMap rustParseF64).length = 9 ∧
    DataPoint.from_str (("x1:2:3:4:5:6:7:8:9:0").toList) 0 = none := by
  exact ⟨by decide, by decide, by decide⟩

/-- C5, amended.  Precheck acceptance alone does not bound the extracted
field count; but on every accepted line all of whose colon-separated tokens
parse as floats, the filtered split yields exactly one float per token in
declared order, and when there are at least ten tokens (as on every
well-formed device line of ten numbers plus terminator) the field indexing
of Sample construction does not panic. -/
theorem C5_fields (s : List Char) (now : ℤ)
    (hm : hasMatch s = true)
    (hp : ∀ t ∈ splitCol s, (rustParseF64 t).isSome = true)
    (hlen : 10 ≤ (splitCol s).length) :
    ((splitCol s).filterMap rustParseF64).length = (splitCol s).length ∧
    (DataPoint.from_str s now).isSome = true := by
  have hfc := length_filterMap_of_isSome rustParseF64 (splitCol s) hp
  refine ⟨hfc, ?_⟩
  unfold DataPoint.from_str
  rw [hm, if_pos rfl]
  unfold DataPoint.new
  rw [dif_pos (by rw [hfc]; omega)]
  rfl

/-- Witness for `C5_fields` at an eleven-token all-numeric line. -/
theorem C5_fields_witness :
    ((splitCol (("0.5:1:2:3:4:5:6:7:8:9:77").toList)).filterMap rustParseF64).length =
      (splitCol (("0.5:1:2:3:4:5:6:7:8:9:77").toList)).length ∧
    (DataPoint.from_str (("0.5:1:2:3:4:5:6:7:8:9:77").toList) 0).isSome = true :=
  C5_fields (("0.5:1:2:3:4:5:6:7:8:9:77").toList) 0 (by decide) (by decide) (by decide)

/-
  Claim C6.
-/

/-- C6.  Decoding the line
`"12.6:18.3:2.1:0.0:14.4:1.0:0.0:25.5:0.0:1.0:9999999"` succeeds and
yields a Sample with battery_voltage = 12.6, pv_voltage = 18.3,
load_current = 2.1, over_discharge = 0.0, battery_max = 14.4,
battery_full = 1.0 (true), charging = 0.0 (false), battery_temp = 25.5,
charge_current = 0.0 and load_onoff = 1.0 (true), assigned in that declared
field order (the trailing integer token is parsed but not assigned). -/
theorem C6_example_line (now : ℤ) :
    DataPoint.from_str exLine now =
      some ⟨now, .num (63/5), .num (183/10), .num (21/10), .num 0, .num (72/5),
        .num 1, .num 0, .num (51/2), .num 0, .num 1⟩ := by
  have hp : ∀ t : List Char, ∀ q : ℚ, rustParseF64 t = some (.num q) →
      ∀ l : List (List Char), (t :: l).filterMap rustParseF64 =
        FloatVal.num q :: l.filterMap rustParseF64 := by
    intro t q h l
    rw [List.filterMap_cons, h]
  have p1 : rustParseF64 (("12.6").toList) = some (.num (63/5)) := by
    simp +decide [rustParseF64, signSplit, splitExpM, mantissaVal, natOfDigits, fracVal,
      allDigits, List.takeWhile, List.dropWhile, List.foldl]
    norm_num
  have p2 : rustParseF64 (("18.3").toList) = some (.num (183/10)) := by
    simp +decide [rustParseF64, signSplit, splitExpM, mantissaVal, natOfDigits, fracVal,
      allDigits, List.takeWhile, List.dropWhile, List.foldl]
    norm_num
  have p3 : rustParseF64 (("2.1").toList) = some (.num (21/10)) := by
    simp +decide [rustParseF64, signSplit, splitExpM, mantissaVal, natOfDigits, fracVal,
      allDigits, List.takeWhile, List.dropWhile, List.foldl]
    norm_num
  have p4 : rustParseF64 (("0.0").toList) = some (.num 0) := by
    simp +decide [rustParseF64, signSplit, splitExpM, mantissaVal, natOfDigits, fracVal,
      allDigits, List.takeWhile, List.dropWhile, List.foldl]
  have p5 : rustParseF64 (("14.4").toList) = some (.num (72/5)) := by
    simp +decide [rustParseF64, signSplit, splitExpM, mantissaVal, natOfDigits, fracVal,
      allDigits, List.takeWhile, List.dropWhile, List.foldl]
    norm_num
  have p6 : rustParseF64 (("1.0").toList) = some (.num 1) := by
    simp +decide [rustParseF64, signSplit, splitExpM, mantissaVal, natOfDigits, fracVal,
      allDigits, List.takeWhile, List.dropWhile, List.foldl]
  have p8 : rustParseF64 (("25.5").toList) = some (.num (51/2)) := by
    simp +decide [rustParseF64, signSplit, splitExpM, mantissaVal, natOfDigits, fracVal,
      allDigits, List.takeWhile, List.dropWhile, List.foldl]
    norm_num
  have p11 : rustParseF64 (("9999999").toList) = some (.num 9999999) := by
    simp +decide [rustParseF64, signSplit, splitExpM, mantissaVal, natOfDigits, fracVal,
      allDigits, List.takeWhile, List.dropWhile, List.foldl]
  have h1 : hasMatch exLine = true := by decide
  have h2 : splitCol exLine = [("12.6").toList, ("18.3").toList, ("2.1").toList,
      ("0.0").toList, ("14.4").toList, ("1.0").toList, ("0.0").toList, ("25.5").toList,
      ("0.0").toList, ("1.0").toList, ("9999999").toList] := by decide
  rw [DataPoint.from_str, h1, if_pos rfl, h2,
    hp _ _ p1, hp _ _ p2, hp _ _ p3, hp _ _ p4, hp _ _ p5, hp _ _ p6, hp _ _ p4, hp _ _ p8,
    hp _ _ p4, hp _ _ p6, hp _ _ p11, List.filterMap_nil]
  rw [DataPoint.new]
  norm_num [List.get]

/-
  Claim C7.
-/

/-- C7, counterexample.  The claim: decode panics exactly on the input
lines that do not match the wire pattern of nine colon-terminated numbers
followed by a final integer token, and returns a Sample on every matching
line.  The line `"1:2:3:4:5:6:7:8:9:10:11"` has eleven tokens and therefore
does not match that pattern as a line, yet decode succeeds without any
panic, because the regex is only searched for somewhere inside the line and
the field extraction keeps every parseable token. -/
theorem C7_counterexample :
    ¬ wireLineWhole (("1:2:3:4:5:6:7:8:9:10:11").toList) ∧
    (DataPoint.from_str (("1:2:3:4:5:6:7:8:9:10:11").toList) 0).isSome = true := by
  constructor
  · rintro ⟨ts, tl, h9, hnum, htl, heq⟩
    have hcf : ∀ g ∈ ts ++ [tl], ∀ c ∈ g, ¬(c = ':') := by
      intro g hg
      rcases List.mem_append.mp hg with h | h
      · exact numTok_colonFree (hnum g h)
      · obtain rfl := List.mem_singleton.mp h
        exact numTok_colonFree (numTok_of_tailTok htl)
    have hsc := splitCol_joinColon (ts ++ [tl]) (by simp) hcf
    rw [← heq] at hsc
    have hlen : (splitCol (("1:2:3:4:5:6:7:8:9:10:11").toList)).length = 11 := by decide
    rw [hsc] at hlen
    simp [h9] at hlen
  · decide

/-- C7, amended.  Decode panics at the precheck exactly when the unanchored
regex search finds no match anywhere in the line; on every line that in its
entirety matches the wire pattern, decode returns a Sample without
panicking.  (Lines that only contain a match somewhere inside may still
succeed — or panic at field indexing — as the counterexamples show.) -/
theorem C7_decode (s : List Char) (now : ℤ) (hw : wireLineWhole s) :
    (DataPoint.from_str s now).isSome = true ∧
    ∀ u : List Char, hasMatch u = false → DataPoint.from_str u now = none := by
  constructor
  · obtain ⟨ts, tl, h9, hnum, htl, heq⟩ := hw
    subst heq
    obtain ⟨c, cs, hcons, hdig⟩ := tailTok_head_digit htl
    apply from_str_of_numTokens now
    · simp [h9]
    · intro t ht
      rcases List.mem_append.mp ht with h | h
      · exact hnum t h
      · obtain rfl := List.mem_singleton.mp h
        exact numTok_of_tailTok htl
    · refine ⟨c, cs, [], ?_, hdig⟩
      rw [← h9, List.drop_left, hcons]
  · intro u hu
    unfold DataPoint.from_str
    rw [hu]
    simp

/-- Witness for `C7_decode` at a concrete whole-pattern line. -/
theorem C7_decode_witness :
    (DataPoint.from_str (("1:2:3:4:5:6:7:8:9:42").toList) 0).isSome = true ∧
    ∀ u : List Char, hasMatch u = false → DataPoint.from_str u 0 = none :=
  C7_decode (("1:2:3:4:5:6:7:8:9:42").toList) 0
    ⟨[("1").toList, ("2").toList, ("3").toList, ("4").toList, ("5").toList,
      ("6").toList, ("7").toList, ("8").toList, ("9").toList], ("42").toList,
      by decide, by decide, by decide, by decide⟩

/-
  Claim C8.
-/

/-- C8.  `read_serial_datapoint` accumulates bytes one at a time until it
sees a newline byte or until a read returns zero bytes (end of available
data, not an error), and returns the accumulated text with all trailing CR
and LF bytes trimmed; the events beyond the terminator stay in the
script. -/
theorem C8_read_line (st : SDLState) (bs : List ℕ) (term : RdEv) (rest : List RdEv)
    (hev : st.rdEvents = bs.map RdEv.byte ++ term :: rest)
    (hb : ∀ b ∈ bs, ¬(b = 10))
    (hterm : term = RdEv.zero ∨ term = RdEv.byte 10) :
    (read_serial_datapoint st).1 = some (trimCRLF bs) ∧
    (read_serial_datapoint st).2.rdEvents = rest := by
  unfold read_serial_datapoint
  rw [hev, readSerialAux_script bs [] term rest hb hterm]
  rcases hterm with h | h
  · subst h
    simp
  · subst h
    simp [trimCRLF_append_newline]

/-- Witness for `C8_read_line`: the bytes of `"HI\r\n"` followed by further
events produce the line `"HI"`. -/
theorem C8_read_line_witness :
    (read_serial_datapoint (SDLState.mk
      [RdEv.byte 72, RdEv.byte 73, RdEv.byte 13, RdEv.byte 10, RdEv.zero]
      [] [] [] 0)).1 = some (trimCRLF [72, 73, 13]) ∧
    (read_serial_datapoint (SDLState.mk
      [RdEv.byte 72, RdEv.byte 73, RdEv.byte 13, RdEv.byte 10, RdEv.zero]
      [] [] [] 0)).2.rdEvents = [RdEv.zero] :=
  C8_read_line (SDLState.mk
      [RdEv.byte 72, RdEv.byte 73, RdEv.byte 13, RdEv.byte 10, RdEv.zero] [] [] [] 0)
    [72, 73, 13] (RdEv.byte 10) [RdEv.zero] rfl (by decide) (Or.inr rfl)

/-
  Claim C9.
-/

/-- C9.  `load_on` writes exactly the bytes of `"LON\n"` and `load_off`
exactly the bytes of `"LOFF\n"`; each operation performs exactly one
throwaway read-line (its result discarded) before writing its command
bytes, then flushes, as the recorded port-operation trace shows. -/
theorem C9_load_commands (st : SDLState) (n : ℕ) (wr : List WrEv)
    (hw : st.wrEvents = WrEv.ok n :: wr) :
    (load_on st).written = st.written ++ [LON] ∧
    (load_on st).trace = st.trace ++
      [PortOp.opRead (((readSerialAux st.rdEvents []).1).map trimCRLF),
        PortOp.opWrite LON, PortOp.opFlush] ∧
    (load_off st).written = st.written ++ [LOFF] ∧
    (load_off st).trace = st.trace ++
      [PortOp.opRead (((readSerialAux st.rdEvents []).1).map trimCRLF),
        PortOp.opWrite LOFF, PortOp.opFlush] := by
  refine ⟨?_, ?_, ?_, ?_⟩ <;>
    simp [load_on, load_off, read_serial_datapoint, sdlWrite, hw]

/-- Witness for `C9_load_commands` with an all-success write script. -/
theorem C9_load_commands_witness :
    (load_on (SDLState.mk [RdEv.zero] [WrEv.ok 4, WrEv.ok 5] [] [] 0)).written =
      (SDLState.mk [RdEv.zero] [WrEv.ok 4, WrEv.ok 5] [] [] 0).written ++ [LON] ∧
    (load_on (SDLState.mk [RdEv.zero] [WrEv.ok 4, WrEv.ok 5] [] [] 0)).trace =
      (SDLState.mk [RdEv.zero] [WrEv.ok 4, WrEv.ok 5] [] [] 0).trace ++
        [PortOp.opRead (((readSerialAux
            (SDLState.mk [RdEv.zero] [WrEv.ok 4, WrEv.ok 5] [] [] 0).rdEvents []).1).map
              trimCRLF),
          PortOp.opWrite LON, PortOp.opFlush] ∧
    (load_off (SDLState.mk [RdEv.zero] [WrEv.ok 4, WrEv.ok 5] [] [] 0)).written =
      (SDLState.mk [RdEv.zero] [WrEv.ok 4, WrEv.ok 5] [] [] 0).written ++ [LOFF] ∧
    (load_off (SDLState.mk [RdEv.zero] [WrEv.ok 4, WrEv.ok 5] [] [] 0)).trace =
      (SDLState.mk [RdEv.zero] [WrEv.ok 4, WrEv.ok 5] [] [] 0).trace ++
        [PortOp.opRead (((readSerialAux
            (SDLState.mk [RdEv.zero] [WrEv.ok 4, WrEv.ok 5] [] [] 0).rdEvents []).1).map
              trimCRLF),
          PortOp.opWrite LOFF, PortOp.opFlush] :=
  C9_load_commands (SDLState.mk [RdEv.zero] [WrEv.ok 4, WrEv.ok 5] [] [] 0)
    4 [WrEv.ok 5] rfl

/-
  Claim C10.
-/

/-- C10.  When the underlying port write fails, `SerialDatalogger::write`
logs the error and returns a byte count of 0 instead of propagating the
error; consequently `load_on` and `load_off` complete normally with no
failure reported to the caller — the port accepts no bytes and the error is
only logged. -/
theorem C10_write_error (st : SDLState) (data : List ℕ) (wr : List WrEv)
    (hw : st.wrEvents = WrEv.err :: wr) :
    (sdlWrite st data).2 = 0 ∧
    (sdlWrite st data).1.errorLogs = st.errorLogs + 1 ∧
    (sdlWrite st data).1.written = st.written ∧
    (load_on st).written = st.written ∧
    (load_off st).written = st.written ∧
    (load_on st).errorLogs = st.errorLogs + 1 ∧
    (load_off st).errorLogs = st.errorLogs + 1 := by
  refine ⟨?_, ?_, ?_, ?_, ?_, ?_, ?_⟩ <;>
    simp [load_on, load_off, read_serial_datapoint, sdlWrite, hw]

/-- Witness for `C10_write_error` with a failing write script. -/
theorem C10_write_error_witness :
    (sdlWrite (SDLState.mk [RdEv.zero] [WrEv.err] [] [] 0) LON).2 = 0 ∧
    (sdlWrite (SDLState.mk [RdEv.zero] [WrEv.err] [] [] 0) LON).1.errorLogs =
      (SDLState.mk [RdEv.zero] [WrEv.err] [] [] 0).errorLogs + 1 ∧
    (sdlWrite (SDLState.mk [RdEv.zero] [WrEv.err] [] [] 0) LON).1.written =
      (SDLState.mk [RdEv.zero] [WrEv.err] [] [] 0).written ∧
    (load_on (SDLState.mk [RdEv.zero] [WrEv.err] [] [] 0)).written =
      (SDLState.mk [RdEv.zero] [WrEv.err] [] [] 0).written ∧
    (load_off (SDLState.mk [RdEv.zero] [WrEv.err] [] [] 0)).written =
      (SDLState.mk [RdEv.zero] [WrEv.err] [] [] 0).written ∧
    (load_on (SDLState.mk [RdEv.zero] [WrEv.err] [] [] 0)).errorLogs =
      (SDLState.mk [RdEv.zero] [WrEv.err] [] [] 0).errorLogs + 1 ∧
    (load_off (SDLState.mk [RdEv.zero] [WrEv.err] [] [] 0)).errorLogs =
      (SDLState.mk [RdEv.zero] [WrEv.err] [] [] 0).errorLogs + 1 :=
  C10_write_error (SDLState.mk [RdEv.zero] [WrEv.err] [] [] 0) LON [] rfl

end Solar
